import Mathlib

/-!
Verification of the `database` package of the hacknhbackend repository
(`src/database/main.go`), a SQLite-backed persistence layer for a course
catalog.

The store is shallowly embedded as a pure state (`DB`): the three course
tables (`courses`, `instructors`, `meetings`) are lists of rows in storage
scan order, with the AUTOINCREMENT counters for the surrogate ids of the
child tables carried explicitly.  SQL statement semantics are modelled as
follows, matching the spec's reading of the backend:

* `INSERT INTO courses` with `term_crn` a PRIMARY KEY fails with a
  uniqueness violation when a row with that key exists, else appends;
* `INSERT INTO instructors/meetings` appends a row with a fresh surrogate id;
* `DELETE FROM t WHERE term_crn = ?` removes every matching row;
* `QueryRow` + `Scan` of a point `SELECT` yields the first matching row, or
  the no-row error when none matches;
* `col LIKE '%' || v || '%'` holds exactly when `v` occurs in `col` as a
  contiguous substring;
* a Go slice access `values[i]` that is out of range is a runtime panic,
  modelled as the outer `Option` layer of `QueryCourse` being `none`.

Stateful Go functions become explicit state passing (`DB → result × DB`),
fallible ones return `Except DbError`.
-/

namespace HackNH

/-- Domain object `courseload.Instructor` (a given data contract per the spec). -/
structure Instructor where
  lastName : String
  firstName : String
  email : String
deriving DecidableEq

/-- Domain object `courseload.Meeting`. -/
structure Meeting where
  days : String
  building : String
  room : String
  time : String
deriving DecidableEq

/-- Domain object `courseload.CourseData`. -/
structure CourseData where
  title : String
  subject : String
  number : String
  description : String
  instructors : List Instructor
  meetings : List Meeting
deriving DecidableEq

/-- Domain object `courseload.Course`: a CRN plus its data. -/
structure Course where
  crn : String
  data : CourseData
deriving DecidableEq

/-- A row of the `courses` table. -/
structure CourseRow where
  term_crn : String
  title : String
  subject_code : String
  course_number : String
  description : String
deriving DecidableEq

/-- A row of the `instructors` table (`id` is the AUTOINCREMENT surrogate key). -/
structure InstructorRow where
  id : Nat
  last_name : String
  first_name : String
  email : String
  term_crn : String
deriving DecidableEq

/-- A row of the `meetings` table. -/
structure MeetingRow where
  id : Nat
  days : String
  building : String
  room : String
  time : String
  term_crn : String
deriving DecidableEq

/-- The persistent store: three tables in scan order plus the AUTOINCREMENT
counters of the two child tables.  (The `users` table plays no part in the
course claims and is omitted.) -/
structure DB where
  courses : List CourseRow
  instructors : List InstructorRow
  meetings : List MeetingRow
  nextInstructorId : Nat
  nextMeetingId : Nat
deriving DecidableEq

/-- The structured errors the store surfaces: a PRIMARY KEY uniqueness
violation on insert, the `sql.ErrNoRows` scan error, and the
`key %s is not queryable` error of `QueryCourse`. -/
inductive DbError where
  | uniquenessViolation
  | noRows
  | unsupportedKey (key : String)
deriving DecidableEq

/-- `leadMatch l pat` is true iff `pat` is an initial segment of `l`. -/
def leadMatch : List Char → List Char → Bool
  | _, [] => true
  | [], _ :: _ => false
  | a :: as, b :: bs => a == b && leadMatch as bs

/-- `subOccurs pat l` is true iff `pat` occurs contiguously inside `l`. -/
def subOccurs (pat : List Char) : List Char → Bool
  | [] => leadMatch [] pat
  | a :: as => leadMatch (a :: as) pat || subOccurs pat as

/-- `strContains s pat` models the SQL predicate `s LIKE '%' || pat || '%'`:
`pat` occurs in `s` as a contiguous substring. -/
def strContains (s pat : String) : Bool :=
  subOccurs pat.data s.data

/-- `maxRetries` constant of `OpenDatabase`. -/
def maxRetries : Nat := 5

/-- `baseDelay` constant of `OpenDatabase`, in milliseconds. -/
def baseDelay : Nat := 100

/-- Observable outcome of `OpenDatabase`: the returned error (`none` on
success, mirroring Go's `nil`), the sleeps performed in order (in
milliseconds), and how many `sql.Open` attempts were made. -/
structure OpenOutcome where
  err : Option String
  sleeps : List Nat
  attempts : Nat
deriving DecidableEq

/-- The retry loop of `OpenDatabase`: `attempt i = none` means the `i`-th
`sql.Open` call succeeds, `some e` that it fails with error `e`.  `i` is the
loop counter, the second argument the remaining iterations, then the current
`err` variable, the sleeps so far, and the attempts made so far. -/
def openLoop (attempt : Nat → Option String) :
    Nat → Nat → Option String → List Nat → Nat → OpenOutcome
  | _, 0, lastErr, sleeps, made => ⟨lastErr, sleeps, made⟩
  | i, r + 1, _, sleeps, made =>
    match attempt i with
    | none => ⟨none, sleeps, made + 1⟩
    | some e => openLoop attempt (i + 1) r (some e) (sleeps ++ [baseDelay * i]) (made + 1)

/-- `OpenDatabase` from `src/database/main.go`: up to `maxRetries` attempts,
sleeping `baseDelay * i` after failed attempt `i`, returning `err = nil` as
soon as an attempt succeeds and the last error otherwise. -/
def OpenDatabase (attempt : Nat → Option String) : OpenOutcome :=
  openLoop attempt 0 maxRetries none [] 0

/-- The loop over `course.Data.Instructors` in `InsertCourse`: each iteration
executes `INSERT INTO instructors (...) VALUES (?, ?, ?, ?)` tagged with the
course CRN, allocating the AUTOINCREMENT id. -/
def insertInstructorRows (crn : String) : DB → List Instructor → DB
  | db, [] => db
  | db, i :: rest =>
    insertInstructorRows crn
      { db with
          instructors :=
            db.instructors ++ [⟨db.nextInstructorId, i.lastName, i.firstName, i.email, crn⟩],
          nextInstructorId := db.nextInstructorId + 1 }
      rest

/-- The loop over `course.Data.Meetings` in `InsertCourse`. -/
def insertMeetingRows (crn : String) : DB → List Meeting → DB
  | db, [] => db
  | db, m :: rest =>
    insertMeetingRows crn
      { db with
          meetings :=
            db.meetings ++ [⟨db.nextMeetingId, m.days, m.building, m.room, m.time, crn⟩],
          nextMeetingId := db.nextMeetingId + 1 }
      rest

/-- `InsertCourse` from `src/database/main.go`: insert the course row (the
PRIMARY KEY on `term_crn` makes a duplicate CRN fail, leaving the store
untouched), then each instructor row, then each meeting row. -/
def InsertCourse (db : DB) (course : Course) : Except DbError Unit × DB :=
  if db.courses.any (fun q => q.term_crn == course.crn) then
    (.error .uniquenessViolation, db)
  else
    let db1 := { db with
      courses := db.courses ++
        [⟨course.crn, course.data.title, course.data.subject, course.data.number,
          course.data.description⟩] }
    let db2 := insertInstructorRows course.crn db1 course.data.instructors
    let db3 := insertMeetingRows course.crn db2 course.data.meetings
    (.ok (), db3)

/-- `DeleteCourse` from `src/database/main.go`: three sequential `DELETE ...
WHERE term_crn = ?` statements over courses, instructors, meetings. -/
def DeleteCourse (db : DB) (term_crn : String) : Except DbError Unit × DB :=
  let db1 := { db with courses := db.courses.filter (fun r => !(r.term_crn == term_crn)) }
  let db2 := { db1 with instructors := db1.instructors.filter (fun r => !(r.term_crn == term_crn)) }
  let db3 := { db2 with meetings := db2.meetings.filter (fun r => !(r.term_crn == term_crn)) }
  (.ok (), db3)

/-- The instructors list `GetCourse` assembles for a CRN: scan of
`SELECT ... FROM instructors WHERE term_crn = ?`, dropping the surrogate id. -/
def rowInstructors (db : DB) (crn : String) : List Instructor :=
  (db.instructors.filter (fun r => r.term_crn == crn)).map
    (fun r => ⟨r.last_name, r.first_name, r.email⟩)

/-- The meetings list `GetCourse` assembles for a CRN. -/
def rowMeetings (db : DB) (crn : String) : List Meeting :=
  (db.meetings.filter (fun r => r.term_crn == crn)).map
    (fun r => ⟨r.days, r.building, r.room, r.time⟩)

/-- The aggregate `GetCourse` builds from a scanned course row. -/
def assembleCourse (db : DB) (r : CourseRow) : Course :=
  ⟨r.term_crn,
   ⟨r.title, r.subject_code, r.course_number, r.description,
    rowInstructors db r.term_crn, rowMeetings db r.term_crn⟩⟩

/-- `GetCourse` from `src/database/main.go`: point lookup of the course row
(`sql.ErrNoRows` when absent), then the two child scans. -/
def GetCourse (db : DB) (term_crn : String) : Except DbError Course :=
  match db.courses.find? (fun r => r.term_crn == term_crn) with
  | none => .error .noRows
  | some r => .ok (assembleCourse db r)

/-- `GetCourseCRNs` from `src/database/main.go`: `SELECT term_crn FROM
courses`, collected into a slice initialised with `make([]string, 0)`. -/
def GetCourseCRNs (db : DB) : Except DbError (List String) :=
  .ok (db.courses.map (fun r => r.term_crn))

/-- The `QueryableKeys` map of `src/database/main.go` (key, human label). -/
def QueryableKeys : List (String × String) :=
  [("term_crn", "CRN"), ("title", "Title"), ("subject_code", "Subject"),
   ("course_number", "Number"), ("subject-number", "Subject & Number")]

/-- The column the default branch of `QueryCourse` compares, for the
whitelisted keys that reach it (`term_crn`, `subject_code`, `course_number`;
also covers `title`, which never reaches it). -/
def courseColumn (r : CourseRow) : String → String
  | "term_crn" => r.term_crn
  | "title" => r.title
  | "subject_code" => r.subject_code
  | "course_number" => r.course_number
  | _ => ""

/-- The CRN-selection query of `QueryCourse`, per key.  `none` models the Go
panic on an out-of-range `values[i]` access (the pattern for the bound
parameter is built before the query runs). -/
def selectCRNs (db : DB) (key : String) (values : List String) : Option (List String) :=
  if key == "title" then
    match values[0]? with
    | none => none
    | some v =>
      some ((db.courses.filter (fun r => strContains r.title v)).map (fun r => r.term_crn))
  else if key == "subject-number" then
    match values[0]?, values[1]? with
    | some a, some b =>
      some ((db.courses.filter
        (fun r => r.subject_code == a && strContains r.course_number b)).map
          (fun r => r.term_crn))
    | _, _ => none
  else
    match values[0]? with
    | none => none
    | some v =>
      some ((db.courses.filter (fun r => courseColumn r key == v)).map (fun r => r.term_crn))

/-- The result-expansion loop of `QueryCourse`: each selected CRN is expanded
through `GetCourse`, aborting on the first error. -/
def expandCourses (db : DB) : List String → Except DbError (List Course)
  | [] => .ok []
  | crn :: rest =>
    match GetCourse db crn with
    | .error e => .error e
    | .ok c =>
      match expandCourses db rest with
      | .error e => .error e
      | .ok cs => .ok (c :: cs)

/-- `QueryCourse` from `src/database/main.go`.  The outer `Option` is the
panic layer: `none` means the Go code panics (index out of range on
`values`); `some` carries the returned `(courses, error)` pair. -/
def QueryCourse (db : DB) (key : String) (values : List String) :
    Option (Except DbError (List Course)) :=
  if !(QueryableKeys.any (fun p => p.1 == key)) then
    some (.error (.unsupportedKey key))
  else
    match selectCRNs db key values with
    | none => none
    | some crns => some (expandCourses db crns)

/-! ### Supporting lemmas for the retry loop -/

theorem range_map_shift (c i m : Nat) :
    (List.range (m + 1)).map (fun j => c * (i + j)) =
      c * i :: (List.range m).map (fun j => c * (i + 1 + j)) := by
  rw [List.range_succ_eq_map, List.map_cons, List.map_map]
  simp only [Nat.add_zero]
  congr 1
  apply List.map_congr_left
  intro a _
  simp only [Function.comp_apply]
  congr 1
  omega

theorem openLoop_attempts_le (attempt : Nat → Option String) :
    ∀ r i lastErr sleeps made,
      (openLoop attempt i r lastErr sleeps made).attempts ≤ made + r := by
  intro r
  induction r with
  | zero => intro i lastErr sleeps made; simp [openLoop]
  | succ s ih =>
    intro i lastErr sleeps made
    cases h : attempt i with
    | none =>
      simp only [openLoop, h]
      omega
    | some e =>
      simp only [openLoop, h]
      have := ih (i + 1) (some e) (sleeps ++ [baseDelay * i]) (made + 1)
      omega

theorem openLoop_success (attempt : Nat → Option String) :
    ∀ k i r lastErr sleeps made, k < r → attempt (i + k) = none →
      (∀ j, j < k → attempt (i + j) ≠ none) →
      openLoop attempt i r lastErr sleeps made =
        ⟨none, sleeps ++ (List.range k).map (fun j => baseDelay * (i + j)), made + k + 1⟩ := by
  intro k
  induction k with
  | zero =>
    intro i r lastErr sleeps made hk hs _
    obtain ⟨t, rfl⟩ : ∃ t, r = t + 1 := ⟨r - 1, by omega⟩
    rw [Nat.add_zero] at hs
    simp [openLoop, hs]
  | succ m ih =>
    intro i r lastErr sleeps made hk hs hf
    obtain ⟨t, rfl⟩ : ∃ t, r = t + 1 := ⟨r - 1, by omega⟩
    cases h0 : attempt i with
    | none => exact absurd h0 (by simpa using hf 0 (by omega))
    | some e =>
      simp only [openLoop, h0]
      have step := ih (i + 1) t (some e) (sleeps ++ [baseDelay * i]) (made + 1) (by omega)
        (by rw [show i + 1 + m = i + (m + 1) by omega]; exact hs)
        (fun j hj => by
          rw [show i + 1 + j = i + (j + 1) by omega]; exact hf (j + 1) (by omega))
      rw [step, List.append_assoc, List.singleton_append, ← range_map_shift]
      simp only [OpenOutcome.mk.injEq]
      refine ⟨trivial, trivial, by omega⟩

theorem openLoop_all_fail (attempt : Nat → Option String) :
    ∀ r i lastErr sleeps made, 0 < r → (∀ j, j < r → attempt (i + j) ≠ none) →
      openLoop attempt i r lastErr sleeps made =
        ⟨attempt (i + (r - 1)),
         sleeps ++ (List.range r).map (fun j => baseDelay * (i + j)), made + r⟩ := by
  intro r
  induction r with
  | zero => intro i lastErr sleeps made h; omega
  | succ s ih =>
    intro i lastErr sleeps made _ hf
    cases h0 : attempt i with
    | none => exact absurd h0 (by simpa using hf 0 (by omega))
    | some e =>
      simp only [openLoop, h0]
      cases s with
      | zero => simp [openLoop, h0, List.range_succ]
      | succ u =>
        have step := ih (i + 1) (some e) (sleeps ++ [baseDelay * i]) (made + 1) (by omega)
          (fun j hj => by
            rw [show i + 1 + j = i + (j + 1) by omega]; exact hf (j + 1) (by omega))
        rw [step, List.append_assoc, List.singleton_append, ← range_map_shift]
        simp only [OpenOutcome.mk.injEq]
        refine ⟨by congr 1; omega, trivial, by omega⟩

/-! ### Supporting lemmas for the course repository -/

theorem find?_append_right {α : Type} (p : α → Bool) (l : List α) (x : α)
    (h : ∀ a ∈ l, p a = false) (hx : p x = true) :
    (l ++ [x]).find? p = some x := by
  induction l with
  | nil => simp [List.find?, hx]
  | cons a t ih =>
    rw [List.cons_append, List.find?_cons_of_neg _ (by simp [h a (by simp)])]
    exact ih (fun b hb => h b (by simp [hb]))

theorem find?_filter_not {α : Type} (p : α → Bool) (l : List α) :
    (l.filter (fun x => !(p x))).find? p = none := by
  rw [List.find?_eq_none]
  intro x hx
  have hpx := (List.mem_filter.mp hx).2
  simp only [Bool.not_eq_eq_eq_not, Bool.not_true] at hpx
  simp [hpx]

theorem filter_not_filter {α : Type} (p : α → Bool) (l : List α) :
    (l.filter (fun x => !(p x))).filter p = [] := by
  rw [List.filter_eq_nil_iff]
  intro x hx
  have hpx := (List.mem_filter.mp hx).2
  simp only [Bool.not_eq_eq_eq_not, Bool.not_true] at hpx
  simp [hpx]

theorem find?_beq_of_nodup {α : Type} (f : α → String) :
    ∀ (l : List α) (r : α), (l.map f).Nodup → r ∈ l →
      l.find? (fun x => f x == f r) = some r := by
  intro l
  induction l with
  | nil => intro r _ hr; simp at hr
  | cons a t ih =>
    intro r hnd hr
    have hnd' : (f a :: t.map f).Nodup := by simpa using hnd
    rcases List.mem_cons.mp hr with h | h
    · subst h
      simp [List.find?]
    · have hne : f a ≠ f r := by
        intro he
        exact (List.nodup_cons.mp hnd').1 (he ▸ List.mem_map_of_mem f h)
      rw [List.find?_cons_of_neg _ (by simp [hne])]
      exact ih r (List.nodup_cons.mp hnd').2 h

theorem insertInstructorRows_courses (crn : String) :
    ∀ (l : List Instructor) (db : DB), (insertInstructorRows crn db l).courses = db.courses := by
  intro l
  induction l with
  | nil => intro db; rfl
  | cons i t ih => intro db; exact ih _

theorem insertInstructorRows_meetings (crn : String) :
    ∀ (l : List Instructor) (db : DB), (insertInstructorRows crn db l).meetings = db.meetings := by
  intro l
  induction l with
  | nil => intro db; rfl
  | cons i t ih => intro db; exact ih _

theorem insertMeetingRows_courses (crn : String) :
    ∀ (l : List Meeting) (db : DB), (insertMeetingRows crn db l).courses = db.courses := by
  intro l
  induction l with
  | nil => intro db; rfl
  | cons m t ih => intro db; exact ih _

theorem insertMeetingRows_instructors (crn : String) :
    ∀ (l : List Meeting) (db : DB), (insertMeetingRows crn db l).instructors = db.instructors := by
  intro l
  induction l with
  | nil => intro db; rfl
  | cons m t ih => intro db; exact ih _

theorem rowInstructors_insertInstructorRows (crn : String) :
    ∀ (l : List Instructor) (db : DB),
      rowInstructors (insertInstructorRows crn db l) crn = rowInstructors db crn ++ l := by
  intro l
  induction l with
  | nil => intro db; simp [insertInstructorRows]
  | cons i t ih =>
    intro db
    simp only [insertInstructorRows]
    rw [ih]
    have hstep : rowInstructors
        { db with
            instructors :=
              db.instructors ++ [⟨db.nextInstructorId, i.lastName, i.firstName, i.email, crn⟩],
            nextInstructorId := db.nextInstructorId + 1 } crn =
        rowInstructors db crn ++ [i] := by
      simp [rowInstructors, List.filter_append]
    rw [hstep]
    simp

theorem rowMeetings_insertMeetingRows (crn : String) :
    ∀ (l : List Meeting) (db : DB),
      rowMeetings (insertMeetingRows crn db l) crn = rowMeetings db crn ++ l := by
  intro l
  induction l with
  | nil => intro db; simp [insertMeetingRows]
  | cons m t ih =>
    intro db
    simp only [insertMeetingRows]
    rw [ih]
    have hstep : rowMeetings
        { db with
            meetings :=
              db.meetings ++ [⟨db.nextMeetingId, m.days, m.building, m.room, m.time, crn⟩],
            nextMeetingId := db.nextMeetingId + 1 } crn =
        rowMeetings db crn ++ [m] := by
      simp [rowMeetings, List.filter_append]
    rw [hstep]
    simp

theorem getCourse_ok_mem (db : DB) (crn : String) (c : Course)
    (h : GetCourse db crn = .ok c) : ∃ r ∈ db.courses, c = assembleCourse db r := by
  unfold GetCourse at h
  cases hf : db.courses.find? (fun r => r.term_crn == crn) with
  | none => rw [hf] at h; simp at h
  | some r =>
    rw [hf] at h
    simp only [Except.ok.injEq] at h
    exact ⟨r, List.mem_of_find?_eq_some hf, h.symm⟩

theorem expandCourses_ok_mem (db : DB) :
    ∀ (crns : List String) (cs : List Course), expandCourses db crns = .ok cs →
      ∀ c ∈ cs, ∃ r ∈ db.courses, c = assembleCourse db r := by
  intro crns
  induction crns with
  | nil =>
    intro cs h c hc
    simp [expandCourses] at h
    subst h
    simp at hc
  | cons crn rest ih =>
    intro cs h c hc
    rw [expandCourses] at h
    cases hg : GetCourse db crn with
    | error e => rw [hg] at h; simp at h
    | ok c0 =>
      rw [hg] at h
      cases he : expandCourses db rest with
      | error e => rw [he] at h; simp at h
      | ok cs0 =>
        rw [he] at h
        simp only [Except.ok.injEq] at h
        subst h
        rcases List.mem_cons.mp hc with rfl | hmem
        · exact getCourse_ok_mem db crn c hg
        · exact ih cs0 he c hmem

theorem expandCourses_map_term_crn (db : DB)
    (hwf : (db.courses.map (fun r => r.term_crn)).Nodup) :
    ∀ l : List CourseRow, (∀ r ∈ l, r ∈ db.courses) →
      expandCourses db (l.map (fun r => r.term_crn)) = .ok (l.map (assembleCourse db)) := by
  intro l
  induction l with
  | nil => intro _; rfl
  | cons r t ih =>
    intro hsub
    have hget : GetCourse db r.term_crn = .ok (assembleCourse db r) := by
      unfold GetCourse
      rw [find?_beq_of_nodup (fun x => x.term_crn) db.courses r hwf (hsub r (by simp))]
    rw [List.map_cons, List.map_cons, expandCourses, hget,
      ih (fun x hx => hsub x (by simp [hx]))]

/-! ### The claims -/

/-- C5: `OpenDatabase` makes at most 5 open attempts; if the first success is
attempt `k` (zero-based) it returns no error after `k + 1` attempts having
slept `baseDelay * j` after each failed attempt `j < k` (zero wait before the
first retry, growing linearly); if all 5 attempts fail it returns the last
error, having slept `0, 1×, 2×, 3×, 4×` the base delay. -/
theorem openDatabase_retry_spec (attempt : Nat → Option String) :
    (OpenDatabase attempt).attempts ≤ 5
    ∧ (∀ k, k < 5 → attempt k = none → (∀ j, j < k → attempt j ≠ none) →
        OpenDatabase attempt =
          ⟨none, (List.range k).map (fun j => baseDelay * j), k + 1⟩)
    ∧ ((∀ j, j < 5 → attempt j ≠ none) →
        OpenDatabase attempt =
          ⟨attempt 4, (List.range 5).map (fun j => baseDelay * j), 5⟩) := by
  refine ⟨?_, ?_, ?_⟩
  · have h := openLoop_attempts_le attempt 5 0 none [] 0
    simpa [OpenDatabase, maxRetries] using h
  · intro k hk hs hf
    have h := openLoop_success attempt k 0 5 none [] 0 hk (by simpa using hs)
      (fun j hj => by simpa using hf j hj)
    simpa [OpenDatabase, maxRetries] using h
  · intro hf
    have h := openLoop_all_fail attempt 5 0 none [] 0 (by omega)
      (fun j hj => by simpa using hf j hj)
    simpa [OpenDatabase, maxRetries] using h

/-- Witness for C5: failing on attempts 0–3 and succeeding on attempt 4
returns success after 5 attempts with sleeps 0, 100, 200, 300 ms. -/
theorem openDatabase_retry_spec_witness :
    OpenDatabase (fun i => if i < 4 then some "disk error" else none) =
      ⟨none, [0, 100, 200, 300], 5⟩ :=
  ((openDatabase_retry_spec (fun i => if i < 4 then some "disk error" else none)).2.1 4
    (by decide) (by decide) (by decide)).trans (by decide)

/-- C2: `QueryCourse` with a key outside the whitelist returns the
unsupported-key error, and the result is the same whatever the store holds
(no store access): the right-hand side does not mention `db`. -/
theorem queryCourse_unsupported_key (db : DB) (key : String) (values : List String)
    (h : key ∉ QueryableKeys.map Prod.fst) :
    QueryCourse db key values = some (.error (.unsupportedKey key)) := by
  have hany : QueryableKeys.any (fun p => p.1 == key) = false := by
    rw [List.any_eq_false]
    intro p hp
    simp only [beq_iff_eq]
    intro hpk
    exact h (by rw [← hpk]; exact List.mem_map_of_mem Prod.fst hp)
  simp [QueryCourse, hany]

/-- Witness for C2 at the non-whitelisted key `"description"` (a real column
of the `courses` table, still rejected). -/
theorem queryCourse_unsupported_key_witness :
    "description" ∉ QueryableKeys.map Prod.fst
    ∧ QueryCourse ⟨[⟨"1", "T", "CS", "101", "d"⟩], [], [], 0, 0⟩ "description" ["T"] =
        some (.error (.unsupportedKey "description")) :=
  ⟨by decide,
   queryCourse_unsupported_key ⟨[⟨"1", "T", "CS", "101", "d"⟩], [], [], 0, 0⟩
     "description" ["T"] (by decide)⟩

/-- C6: inserting a course whose CRN already labels a stored course row fails
with the uniqueness violation and returns the store exactly as it was. -/
theorem insertCourse_duplicate_crn (db : DB) (c : Course)
    (h : ∃ r ∈ db.courses, r.term_crn = c.crn) :
    InsertCourse db c = (.error .uniquenessViolation, db) := by
  have hany : db.courses.any (fun q => q.term_crn == c.crn) = true := by
    rw [List.any_eq_true]
    obtain ⟨r, hr, he⟩ := h
    exact ⟨r, hr, by simp [he]⟩
  simp [InsertCourse, hany]

/-- Witness for C6: re-inserting CRN "1" fails and leaves the store intact. -/
theorem insertCourse_duplicate_crn_witness :
    (∃ r ∈ ([⟨"1", "T", "CS", "101", "d"⟩] : List CourseRow), r.term_crn = "1")
    ∧ InsertCourse ⟨[⟨"1", "T", "CS", "101", "d"⟩], [], [], 0, 0⟩
        ⟨"1", ⟨"U", "EE", "202", "e", [], []⟩⟩ =
      (.error .uniquenessViolation, ⟨[⟨"1", "T", "CS", "101", "d"⟩], [], [], 0, 0⟩) :=
  ⟨⟨⟨"1", "T", "CS", "101", "d"⟩, by decide, rfl⟩,
   insertCourse_duplicate_crn _ _ ⟨⟨"1", "T", "CS", "101", "d"⟩, by decide, rfl⟩⟩

/-- C8: deleting a CRN for which no course row exists succeeds (no error is
returned; zero affected rows are not distinguished from a deleted row) and
leaves the courses table unchanged. -/
theorem deleteCourse_missing_crn (db : DB) (crn : String)
    (h : ∀ r ∈ db.courses, r.term_crn ≠ crn) :
    (DeleteCourse db crn).1 = .ok () ∧ (DeleteCourse db crn).2.courses = db.courses := by
  refine ⟨rfl, ?_⟩
  show db.courses.filter (fun r => !(r.term_crn == crn)) = db.courses
  rw [List.filter_eq_self]
  intro r hr
  simp [h r hr]

/-- Witness for C8: deleting the absent CRN "2" is a silent no-op. -/
theorem deleteCourse_missing_crn_witness :
    (∀ r ∈ ([⟨"1", "T", "CS", "101", "d"⟩] : List CourseRow), r.term_crn ≠ "2")
    ∧ (DeleteCourse ⟨[⟨"1", "T", "CS", "101", "d"⟩], [], [], 0, 0⟩ "2").1 = .ok ()
    ∧ (DeleteCourse ⟨[⟨"1", "T", "CS", "101", "d"⟩], [], [], 0, 0⟩ "2").2.courses =
        [⟨"1", "T", "CS", "101", "d"⟩] :=
  ⟨by decide,
   (deleteCourse_missing_crn ⟨[⟨"1", "T", "CS", "101", "d"⟩], [], [], 0, 0⟩ "2"
     (by decide)).1,
   (deleteCourse_missing_crn ⟨[⟨"1", "T", "CS", "101", "d"⟩], [], [], 0, 0⟩ "2"
     (by decide)).2⟩

/-- C9: `GetCourseCRNs` on a store with no courses returns a successful empty
list (never an error and never an absent value: the `.ok` constructor carries
the empty list itself). -/
theorem getCourseCRNs_empty (db : DB) (h : db.courses = []) :
    GetCourseCRNs db = .ok [] := by
  simp [GetCourseCRNs, h]

/-- Witness for C9 at the empty store. -/
theorem getCourseCRNs_empty_witness :
    GetCourseCRNs ⟨[], [], [], 0, 0⟩ = .ok [] :=
  getCourseCRNs_empty ⟨[], [], [], 0, 0⟩ rfl

/-- C1: inserting a valid course whose CRN appears nowhere in the store and
then getting that CRN returns the aggregate unchanged: same CRN, title,
subject, number, description, and the same instructor and meeting lists
(the storage-internal surrogate ids on children are dropped on read). -/
theorem insertCourse_getCourse_roundtrip (db : DB) (c : Course)
    (h1 : ∀ r ∈ db.courses, r.term_crn ≠ c.crn)
    (h2 : ∀ r ∈ db.instructors, r.term_crn ≠ c.crn)
    (h3 : ∀ r ∈ db.meetings, r.term_crn ≠ c.crn) :
    (InsertCourse db c).1 = .ok () ∧ GetCourse (InsertCourse db c).2 c.crn = .ok c := by
  have hany : db.courses.any (fun q => q.term_crn == c.crn) = false := by
    rw [List.any_eq_false]
    intro r hr
    simp [h1 r hr]
  refine ⟨by simp [InsertCourse, hany], ?_⟩
  have hsnd : (InsertCourse db c).2 =
      insertMeetingRows c.crn
        (insertInstructorRows c.crn
          { db with courses := db.courses ++
              [⟨c.crn, c.data.title, c.data.subject, c.data.number, c.data.description⟩] }
          c.data.instructors)
        c.data.meetings := by
    simp [InsertCourse, hany]
  rw [hsnd]
  generalize hdb1 : ({ db with courses := db.courses ++
      [⟨c.crn, c.data.title, c.data.subject, c.data.number, c.data.description⟩] } : DB) = db1
  have hi1 : db1.instructors = db.instructors := by rw [← hdb1]
  have hm1 : db1.meetings = db.meetings := by rw [← hdb1]
  have hc1 : db1.courses = db.courses ++
      [⟨c.crn, c.data.title, c.data.subject, c.data.number, c.data.description⟩] := by
    rw [← hdb1]
  have hfind : (insertMeetingRows c.crn (insertInstructorRows c.crn db1 c.data.instructors)
      c.data.meetings).courses.find? (fun r => r.term_crn == c.crn) =
      some ⟨c.crn, c.data.title, c.data.subject, c.data.number, c.data.description⟩ := by
    rw [insertMeetingRows_courses, insertInstructorRows_courses, hc1]
    exact find?_append_right _ _ _ (fun a ha => by simp [h1 a ha]) (by simp)
  have hIns : rowInstructors (insertMeetingRows c.crn
      (insertInstructorRows c.crn db1 c.data.instructors) c.data.meetings) c.crn =
      c.data.instructors := by
    have hx : rowInstructors (insertMeetingRows c.crn
        (insertInstructorRows c.crn db1 c.data.instructors) c.data.meetings) c.crn =
        rowInstructors (insertInstructorRows c.crn db1 c.data.instructors) c.crn := by
      simp only [rowInstructors, insertMeetingRows_instructors]
    rw [hx, rowInstructors_insertInstructorRows]
    have hfnil : db1.instructors.filter (fun r => r.term_crn == c.crn) = [] := by
      rw [hi1, List.filter_eq_nil_iff]
      intro r hr
      simp [h2 r hr]
    simp [rowInstructors, hfnil]
  have hMee : rowMeetings (insertMeetingRows c.crn
      (insertInstructorRows c.crn db1 c.data.instructors) c.data.meetings) c.crn =
      c.data.meetings := by
    rw [rowMeetings_insertMeetingRows]
    have hx : rowMeetings (insertInstructorRows c.crn db1 c.data.instructors) c.crn =
        rowMeetings db1 c.crn := by
      simp only [rowMeetings, insertInstructorRows_meetings]
    rw [hx]
    have hfnil : db1.meetings.filter (fun r => r.term_crn == c.crn) = [] := by
      rw [hm1, List.filter_eq_nil_iff]
      intro r hr
      simp [h3 r hr]
    simp [rowMeetings, hfnil]
  unfold GetCourse
  rw [hfind]
  simp only [Except.ok.injEq, assembleCourse]
  rw [hIns, hMee]

/-- Witness for C1: the spec's §8 scenario course, inserted into a store
already holding an unrelated course "9" with its own child rows. -/
theorem insertCourse_getCourse_roundtrip_witness :
    (∀ r ∈ ([⟨"9", "X", "EE", "300", "z"⟩] : List CourseRow), r.term_crn ≠ "202410-12345")
    ∧ (∀ r ∈ ([⟨1, "A", "B", "a@b.edu", "9"⟩] : List InstructorRow), r.term_crn ≠ "202410-12345")
    ∧ (∀ r ∈ ([⟨1, "TR", "H", "14", "9:00", "9"⟩] : List MeetingRow), r.term_crn ≠ "202410-12345")
    ∧ (InsertCourse ⟨[⟨"9", "X", "EE", "300", "z"⟩], [⟨1, "A", "B", "a@b.edu", "9"⟩],
        [⟨1, "TR", "H", "14", "9:00", "9"⟩], 2, 2⟩
        ⟨"202410-12345", ⟨"Intro to Systems", "CS", "101", "d",
          [⟨"Doe", "Jane", "jdoe@x.edu"⟩], [⟨"MWF", "Hall", "101", "10:00-10:50"⟩]⟩⟩).1 = .ok ()
    ∧ GetCourse (InsertCourse ⟨[⟨"9", "X", "EE", "300", "z"⟩], [⟨1, "A", "B", "a@b.edu", "9"⟩],
        [⟨1, "TR", "H", "14", "9:00", "9"⟩], 2, 2⟩
        ⟨"202410-12345", ⟨"Intro to Systems", "CS", "101", "d",
          [⟨"Doe", "Jane", "jdoe@x.edu"⟩], [⟨"MWF", "Hall", "101", "10:00-10:50"⟩]⟩⟩).2
        "202410-12345" =
      .ok ⟨"202410-12345", ⟨"Intro to Systems", "CS", "101", "d",
          [⟨"Doe", "Jane", "jdoe@x.edu"⟩], [⟨"MWF", "Hall", "101", "10:00-10:50"⟩]⟩⟩ := by
  have h := insertCourse_getCourse_roundtrip
    ⟨[⟨"9", "X", "EE", "300", "z"⟩], [⟨1, "A", "B", "a@b.edu", "9"⟩],
     [⟨1, "TR", "H", "14", "9:00", "9"⟩], 2, 2⟩
    ⟨"202410-12345", ⟨"Intro to Systems", "CS", "101", "d",
      [⟨"Doe", "Jane", "jdoe@x.edu"⟩], [⟨"MWF", "Hall", "101", "10:00-10:50"⟩]⟩⟩
    (by decide) (by decide) (by decide)
  exact ⟨by decide, by decide, by decide, h.1, h.2⟩

/-- C3: with the PRIMARY KEY invariant (no two course rows share a
`term_crn`), `QueryCourse "title" [s]` succeeds and returns exactly the
aggregates of the courses whose title contains `s` as a substring: the
result is the expansion of the filtered rows, every returned course's title
contains `s`, and every stored row whose title contains `s` appears. -/
theorem queryCourse_title_exact (db : DB) (s : String)
    (hwf : (db.courses.map (fun r => r.term_crn)).Nodup) :
    ∃ cs, QueryCourse db "title" [s] = some (.ok cs)
      ∧ cs = (db.courses.filter (fun r => strContains r.title s)).map (assembleCourse db)
      ∧ (∀ c ∈ cs, strContains c.data.title s = true)
      ∧ (∀ r ∈ db.courses, strContains r.title s = true → assembleCourse db r ∈ cs) := by
  refine ⟨(db.courses.filter (fun r => strContains r.title s)).map (assembleCourse db),
    ?_, rfl, ?_, ?_⟩
  · have hq : QueryCourse db "title" [s] =
        some (expandCourses db
          ((db.courses.filter (fun r => strContains r.title s)).map (fun r => r.term_crn))) := rfl
    rw [hq, expandCourses_map_term_crn db hwf _ (fun r hr => List.mem_of_mem_filter hr)]
  · intro c hc
    obtain ⟨r, hr, rfl⟩ := List.mem_map.mp hc
    have hp := (List.mem_filter.mp hr).2
    simpa [assembleCourse] using hp
  · intro r hr hcont
    exact List.mem_map_of_mem _ (List.mem_filter.mpr ⟨hr, hcont⟩)

/-- Witness for C3: searching titles for "Intro" returns exactly the course
"Introduction to Systems" and not "Advanced Systems". -/
theorem queryCourse_title_exact_witness :
    (([⟨"1", "Introduction to Systems", "CS", "101", "d"⟩,
       ⟨"2", "Advanced Systems", "CS", "201", "d"⟩] : List CourseRow).map
        (fun r => r.term_crn)).Nodup
    ∧ ∃ cs, QueryCourse ⟨[⟨"1", "Introduction to Systems", "CS", "101", "d"⟩,
          ⟨"2", "Advanced Systems", "CS", "201", "d"⟩], [], [], 0, 0⟩ "title" ["Intro"] =
        some (.ok cs)
      ∧ cs = (([⟨"1", "Introduction to Systems", "CS", "101", "d"⟩,
          ⟨"2", "Advanced Systems", "CS", "201", "d"⟩] : List CourseRow).filter
            (fun r => strContains r.title "Intro")).map
          (assembleCourse ⟨[⟨"1", "Introduction to Systems", "CS", "101", "d"⟩,
            ⟨"2", "Advanced Systems", "CS", "201", "d"⟩], [], [], 0, 0⟩)
      ∧ (∀ c ∈ cs, strContains c.data.title "Intro" = true)
      ∧ (∀ r ∈ ([⟨"1", "Introduction to Systems", "CS", "101", "d"⟩,
          ⟨"2", "Advanced Systems", "CS", "201", "d"⟩] : List CourseRow),
          strContains r.title "Intro" = true →
            assembleCourse ⟨[⟨"1", "Introduction to Systems", "CS", "101", "d"⟩,
              ⟨"2", "Advanced Systems", "CS", "201", "d"⟩], [], [], 0, 0⟩ r ∈ cs) :=
  ⟨by decide,
   queryCourse_title_exact ⟨[⟨"1", "Introduction to Systems", "CS", "101", "d"⟩,
     ⟨"2", "Advanced Systems", "CS", "201", "d"⟩], [], [], 0, 0⟩ "Intro" (by decide)⟩

/-- C4: with the PRIMARY KEY invariant, `QueryCourse "subject-number" [a, b]`
succeeds and returns exactly the courses whose subject code equals `a`
exactly and whose course number contains `b` as a substring (substring, not
prefix). -/
theorem queryCourse_subject_number_exact (db : DB) (a b : String)
    (hwf : (db.courses.map (fun r => r.term_crn)).Nodup) :
    ∃ cs, QueryCourse db "subject-number" [a, b] = some (.ok cs)
      ∧ cs = (db.courses.filter
          (fun r => r.subject_code == a && strContains r.course_number b)).map
            (assembleCourse db)
      ∧ (∀ c ∈ cs, c.data.subject = a ∧ strContains c.data.number b = true)
      ∧ (∀ r ∈ db.courses, r.subject_code = a → strContains r.course_number b = true →
          assembleCourse db r ∈ cs) := by
  refine ⟨(db.courses.filter
      (fun r => r.subject_code == a && strContains r.course_number b)).map (assembleCourse db),
    ?_, rfl, ?_, ?_⟩
  · have hq : QueryCourse db "subject-number" [a, b] =
        some (expandCourses db ((db.courses.filter
          (fun r => r.subject_code == a && strContains r.course_number b)).map
            (fun r => r.term_crn))) := rfl
    rw [hq, expandCourses_map_term_crn db hwf _ (fun r hr => List.mem_of_mem_filter hr)]
  · intro c hc
    obtain ⟨r, hr, rfl⟩ := List.mem_map.mp hc
    have hp := (List.mem_filter.mp hr).2
    simp only [Bool.and_eq_true, beq_iff_eq] at hp
    exact ⟨by simpa [assembleCourse] using hp.1, by simpa [assembleCourse] using hp.2⟩
  · intro r hr ha hb
    refine List.mem_map_of_mem _ (List.mem_filter.mpr ⟨hr, ?_⟩)
    simp [ha, hb]

/-- Witness for C4: subject "CS" with number fragment "101" matches numbers
"101" and "2101" (substring, not prefix) but not "999" and not subject "EE". -/
theorem queryCourse_subject_number_exact_witness :
    (([⟨"1", "A", "CS", "2101", "d"⟩, ⟨"2", "B", "CS", "999", "d"⟩,
       ⟨"3", "C", "EE", "101", "d"⟩] : List CourseRow).map (fun r => r.term_crn)).Nodup
    ∧ ∃ cs, QueryCourse ⟨[⟨"1", "A", "CS", "2101", "d"⟩, ⟨"2", "B", "CS", "999", "d"⟩,
          ⟨"3", "C", "EE", "101", "d"⟩], [], [], 0, 0⟩ "subject-number" ["CS", "101"] =
        some (.ok cs)
      ∧ cs = (([⟨"1", "A", "CS", "2101", "d"⟩, ⟨"2", "B", "CS", "999", "d"⟩,
          ⟨"3", "C", "EE", "101", "d"⟩] : List CourseRow).filter
            (fun r => r.subject_code == "CS" && strContains r.course_number "101")).map
          (assembleCourse ⟨[⟨"1", "A", "CS", "2101", "d"⟩, ⟨"2", "B", "CS", "999", "d"⟩,
            ⟨"3", "C", "EE", "101", "d"⟩], [], [], 0, 0⟩)
      ∧ (∀ c ∈ cs, c.data.subject = "CS" ∧ strContains c.data.number "101" = true)
      ∧ (∀ r ∈ ([⟨"1", "A", "CS", "2101", "d"⟩, ⟨"2", "B", "CS", "999", "d"⟩,
          ⟨"3", "C", "EE", "101", "d"⟩] : List CourseRow),
          r.subject_code = "CS" → strContains r.course_number "101" = true →
            assembleCourse ⟨[⟨"1", "A", "CS", "2101", "d"⟩, ⟨"2", "B", "CS", "999", "d"⟩,
              ⟨"3", "C", "EE", "101", "d"⟩], [], [], 0, 0⟩ r ∈ cs) :=
  ⟨by decide,
   queryCourse_subject_number_exact ⟨[⟨"1", "A", "CS", "2101", "d"⟩,
     ⟨"2", "B", "CS", "999", "d"⟩, ⟨"3", "C", "EE", "101", "d"⟩], [], [], 0, 0⟩
     "CS" "101" (by decide)⟩

/-- C7: after `DeleteCourse crn` (which always reports success), the course
row and every instructor and meeting row tagged with that CRN are removed:
`GetCourse crn` fails with the no-row error, the child tables hold no row
tagged with the CRN, and any `QueryCourse` invocation that returns a result
list never includes a course with that CRN. -/
theorem deleteCourse_removes (db : DB) (crn key : String) (values : List String)
    (cs : List Course)
    (h : QueryCourse (DeleteCourse db crn).2 key values = some (.ok cs)) :
    GetCourse (DeleteCourse db crn).2 crn = .error .noRows
    ∧ (DeleteCourse db crn).2.instructors.filter (fun r => r.term_crn == crn) = []
    ∧ (DeleteCourse db crn).2.meetings.filter (fun r => r.term_crn == crn) = []
    ∧ ∀ c ∈ cs, c.crn ≠ crn := by
  refine ⟨?_, ?_, ?_, ?_⟩
  · have hfind : (DeleteCourse db crn).2.courses.find? (fun r => r.term_crn == crn) = none :=
      find?_filter_not (fun r : CourseRow => r.term_crn == crn) db.courses
    unfold GetCourse
    rw [hfind]
  · exact filter_not_filter (fun r : InstructorRow => r.term_crn == crn) db.instructors
  · exact filter_not_filter (fun r : MeetingRow => r.term_crn == crn) db.meetings
  · intro c hc
    unfold QueryCourse at h
    by_cases hkey : (!(QueryableKeys.any (fun p => p.1 == key))) = true
    · rw [if_pos hkey] at h
      simp at h
    · rw [if_neg hkey] at h
      cases hsel : selectCRNs (DeleteCourse db crn).2 key values with
      | none => rw [hsel] at h; simp at h
      | some crns =>
        rw [hsel] at h
        simp only [Option.some.injEq] at h
        obtain ⟨r, hr, rfl⟩ := expandCourses_ok_mem _ crns cs h c hc
        have hrm : r ∈ db.courses.filter (fun x => !(x.term_crn == crn)) := hr
        have hne := (List.mem_filter.mp hrm).2
        simp only [Bool.not_eq_eq_eq_not, Bool.not_true, beq_eq_false_iff_ne] at hne
        simpa [assembleCourse] using hne

/-- Witness for C7: deleting the only course "1" (with one instructor and one
meeting row) empties the store; a subsequent title query returns the empty
list and the Get fails with the no-row error. -/
theorem deleteCourse_removes_witness :
    QueryCourse (DeleteCourse ⟨[⟨"1", "T", "CS", "101", "d"⟩], [⟨1, "L", "F", "e@x", "1"⟩],
        [⟨1, "MWF", "B", "R", "10:00", "1"⟩], 2, 2⟩ "1").2 "title" [""] = some (.ok [])
    ∧ (GetCourse (DeleteCourse ⟨[⟨"1", "T", "CS", "101", "d"⟩], [⟨1, "L", "F", "e@x", "1"⟩],
          [⟨1, "MWF", "B", "R", "10:00", "1"⟩], 2, 2⟩ "1").2 "1" = .error .noRows
      ∧ (DeleteCourse ⟨[⟨"1", "T", "CS", "101", "d"⟩], [⟨1, "L", "F", "e@x", "1"⟩],
          [⟨1, "MWF", "B", "R", "10:00", "1"⟩], 2, 2⟩ "1").2.instructors.filter
            (fun r => r.term_crn == "1") = []
      ∧ (DeleteCourse ⟨[⟨"1", "T", "CS", "101", "d"⟩], [⟨1, "L", "F", "e@x", "1"⟩],
          [⟨1, "MWF", "B", "R", "10:00", "1"⟩], 2, 2⟩ "1").2.meetings.filter
            (fun r => r.term_crn == "1") = []
      ∧ ∀ c ∈ ([] : List Course), c.crn ≠ "1") :=
  ⟨rfl,
   deleteCourse_removes ⟨[⟨"1", "T", "CS", "101", "d"⟩], [⟨1, "L", "F", "e@x", "1"⟩],
     [⟨1, "MWF", "B", "R", "10:00", "1"⟩], 2, 2⟩ "1" "title" [""] [] rfl⟩

/-- C10: `QueryCourse` is not total on its public argument space: with the
whitelisted keys `"title"` (no values), `"subject-number"` (one value) and
`"term_crn"` (no values) it panics on an out-of-range `values` index — the
outer `Option` is `none`, not a structured `some (.error _)` — whatever the
store holds. -/
theorem queryCourse_short_values_panics (db : DB) (v : String) :
    QueryCourse db "title" [] = none
    ∧ QueryCourse db "subject-number" [v] = none
    ∧ QueryCourse db "term_crn" [] = none :=
  ⟨rfl, rfl, rfl⟩

end HackNH
